import Mathlib

/-!
Shallow embedding of `weather.py` (python-weather-project).

Modelling conventions:
* Python numbers (ints and floats) are modelled as exact rationals `ℚ`;
  `float(x)` on a number is the identity in this model.
* Python `round(x, 1)` is modelled as round-half-to-even at one decimal
  place on the exact rational value (`round1` below); for the integer
  Fahrenheit inputs this program feeds it, the exact value is never a
  decimal midpoint, so the tie-break rule is not observable there.
* Code that can raise (date parsing, and the report builders that call
  it) returns `Option`; `none` models an uncaught exception.
* `f"{temp}"` on the one-decimal floats this program produces is
  modelled by `reprQ1`, the sign/integer-part/one-digit rendering.
-/

namespace Weather

/-- `DEGREE_SYMBOL = u"\N{DEGREE SIGN}C"` from `weather.py`. -/
def DEGREE_SYMBOL : String := "°C"

/-- Digits of a natural number, most significant first; `fuel` bounds the
recursion structurally so the definition reduces in the kernel. -/
def natReprAux : ℕ → ℕ → List Char
  | 0, _ => []
  | fuel + 1, n =>
    if n < 10 then [Nat.digitChar n]
    else natReprAux fuel (n / 10) ++ [Nat.digitChar (n % 10)]

/-- Decimal rendering of a natural number, as Python `f"{n}"` for `n ≥ 0`. -/
def natRepr (n : ℕ) : String := String.mk (natReprAux (n + 1) n)

/-- Rendering of a rational that is an exact multiple of `1/10`, as Python
repr of the corresponding one-decimal float (sign, integer part, one digit). -/
def reprQ1 (q : ℚ) : String :=
  let k : ℤ := ⌊q * 10⌋
  (if k < 0 then "-" else "") ++ natRepr (k.natAbs / 10) ++ "." ++ natRepr (k.natAbs % 10)

/-- `format_temperature(temp)`: `f"{temp}{DEGREE_SYMBOL}"`. -/
def format_temperature (temp : ℚ) : String :=
  reprQ1 temp ++ DEGREE_SYMBOL

/-- Round a rational to the nearest integer, ties to the even neighbour:
the rule Python `round` applies to the exact value of its argument. -/
def roundHalfEven (x : ℚ) : ℤ :=
  if x - ⌊x⌋ < 1 / 2 then ⌊x⌋
  else if (1 : ℚ) / 2 < x - ⌊x⌋ then ⌊x⌋ + 1
  else if ⌊x⌋ % 2 = 0 then ⌊x⌋ else ⌊x⌋ + 1

/-- Python `round(x, 1)` on the exact rational value. -/
def round1 (x : ℚ) : ℚ := (roundHalfEven (x * 10) : ℚ) / 10

/-- `convert_f_to_c(temp_in_fahrenheit)`:
`round((float(t) - 32) * 5.0 / 9.0, 1)`. -/
def convert_f_to_c (temp_in_fahrenheit : ℚ) : ℚ :=
  round1 ((temp_in_fahrenheit - 32) * 5 / 9)

/-- `calculate_mean(weather_data)`: `0.0` on the empty list, otherwise
`sum(numbers) / len(numbers)` where `numbers` is the float cast of the list
(the identity in this model). -/
def calculate_mean (weather_data : List ℚ) : ℚ :=
  if weather_data = [] then 0
  else
    let numbers := weather_data.map (fun temp => temp)
    numbers.sum / numbers.length

/-- `find_min(weather_data)`: empty result on `[]`; otherwise the list
minimum (`min` builtin, a left fold from the head) paired with the first
index, scanning `range(len - 1, -1, -1)`, whose entry equals that minimum.
The fall-through of the Python loop (returning `None`) is also `none`. -/
def find_min (weather_data : List ℚ) : Option (ℚ × ℕ) :=
  match weather_data with
  | [] => none
  | t :: ts =>
    let temps_float := t :: ts
    let min_value := ts.foldl min t
    ((List.range temps_float.length).reverse.find?
      (fun i => decide (temps_float.getD i 0 = min_value))).map
      (fun i => (min_value, i))

/-- `find_max(weather_data)`: symmetric to `find_min` with the `max` builtin. -/
def find_max (weather_data : List ℚ) : Option (ℚ × ℕ) :=
  match weather_data with
  | [] => none
  | t :: ts =>
    let temps_float := t :: ts
    let max_value := ts.foldl max t
    ((List.range temps_float.length).reverse.find?
      (fun i => decide (temps_float.getD i 0 = max_value))).map
      (fun i => (max_value, i))

/-- Full month names, as `strftime("%B")`. -/
def monthNames : List String :=
  ["January", "February", "March", "April", "May", "June", "July",
   "August", "September", "October", "November", "December"]

/-- Full weekday names, Monday first, as `strftime("%A")` combined with
CPython `date.weekday()` numbering. -/
def weekdayNames : List String :=
  ["Monday", "Tuesday", "Wednesday", "Thursday", "Friday", "Saturday", "Sunday"]

/-- Gregorian leap-year test, as `calendar`/`datetime` use. -/
def isLeapYear (y : ℕ) : Bool :=
  y % 4 == 0 && (y % 100 != 0 || y % 400 == 0)

/-- Days in month `m` of year `y` (proleptic Gregorian, as `datetime.date`). -/
def monthLength (y m : ℕ) : ℕ :=
  match m with
  | 2 => if isLeapYear y then 29 else 28
  | 4 => 30
  | 6 => 30
  | 9 => 30
  | 11 => 30
  | _ => 31

/-- Days in the months strictly before month `m` of year `y`. -/
def daysBeforeMonth (y m : ℕ) : ℕ :=
  [0, 31, 59, 90, 120, 151, 181, 212, 243, 273, 304, 334].getD (m - 1) 0
    + (if 2 < m ∧ isLeapYear y then 1 else 0)

/-- CPython `date.toordinal()`: day number with `0001-01-01` as day 1. -/
def toOrdinal (y m d : ℕ) : ℕ :=
  365 * (y - 1) + (y - 1) / 4 - (y - 1) / 100 + (y - 1) / 400
    + daysBeforeMonth y m + d

/-- CPython `date.weekday()`: `0` is Monday. -/
def weekdayIndex (y m d : ℕ) : ℕ := (toOrdinal y m d - 1) % 7

/-- The dates `datetime.fromisoformat` accepts in the date-only form this
program feeds it: four-digit year `1..9999`, month `1..12`, day within the
month. -/
def ValidDate (y m d : ℕ) : Prop :=
  (1 ≤ y ∧ y ≤ 9999) ∧ (1 ≤ m ∧ m ≤ 12) ∧ 1 ≤ d ∧ d ≤ monthLength y m

instance (y m d : ℕ) : Decidable (ValidDate y m d) := by
  unfold ValidDate; infer_instance

/-- One decimal digit of `int(str)` parsing. -/
def parseDigit (c : Char) : Option ℕ :=
  if c = '0' then some 0
  else if c = '1' then some 1
  else if c = '2' then some 2
  else if c = '3' then some 3
  else if c = '4' then some 4
  else if c = '5' then some 5
  else if c = '6' then some 6
  else if c = '7' then some 7
  else if c = '8' then some 8
  else if c = '9' then some 9
  else none

/-- Two decimal digits, returning their value and the remaining characters. -/
def digits2 : List Char → Option (ℕ × List Char)
  | c1 :: c2 :: rest =>
    match parseDigit c1, parseDigit c2 with
    | some a, some b => some (10 * a + b, rest)
    | _, _ => none
  | _ => none

/-- Count of leading decimal digits, and the remaining characters. -/
def spanDigits : List Char → ℕ × List Char
  | [] => (0, [])
  | c :: rest =>
    if (parseDigit c).isSome then
      ((spanDigits rest).1 + 1, (spanDigits rest).2)
    else (0, c :: rest)

/-- A UTC-offset tail after the sign: `HH`, `HH:MM` or `HHMM`, in range. -/
def parseTzOffsetTail (l : List Char) : Bool :=
  match digits2 l with
  | none => false
  | some (hh, r1) =>
    decide (hh ≤ 23) &&
    match r1 with
    | [] => true
    | ':' :: r2 =>
      (match digits2 r2 with
      | some (mm, r3) => decide (mm ≤ 59) && decide (r3 = [])
      | none => false)
    | _ =>
      (match digits2 r1 with
      | some (mm, r3) => decide (mm ≤ 59) && decide (r3 = [])
      | none => false)

/-- A timezone suffix: empty, `Z`, or a signed hour/minute offset. -/
def parseTz : List Char → Bool
  | [] => true
  | ['Z'] => true
  | '+' :: rest => parseTzOffsetTail rest
  | '-' :: rest => parseTzOffsetTail rest
  | _ => false

/-- The time-of-day strings this model accepts, a sound subset of what
CPython's `fromisoformat` accepts after the separator: `HH`, `HH:MM`,
`HH:MM:SS`, an optional fraction after the seconds (`.` or `,` then at
least one digit), and an optional timezone suffix, with the fields in
range.  Everything accepted here is accepted by CPython 3.12; some forms
CPython additionally accepts (basic `HHMMSS` times, offsets with seconds)
are rejected here, and no theorem below relies on any rejection. -/
def parseTimeChars (l : List Char) : Bool :=
  match digits2 l with
  | none => false
  | some (hh, r1) =>
    decide (hh ≤ 23) &&
    match r1 with
    | ':' :: r2 =>
      (match digits2 r2 with
      | none => false
      | some (mm, r3) =>
        decide (mm ≤ 59) &&
        match r3 with
        | ':' :: r4 =>
          (match digits2 r4 with
          | none => false
          | some (ss, r5) =>
            decide (ss ≤ 59) &&
            match r5 with
            | '.' :: r6 => decide (1 ≤ (spanDigits r6).1) && parseTz (spanDigits r6).2
            | ',' :: r6 => decide (1 ≤ (spanDigits r6).1) && parseTz (spanDigits r6).2
            | _ => parseTz r5)
        | _ => parseTz r3)
    | _ => parseTz r1

/-- The extended (dashed) `YYYY-MM-DD` date prefix: the (year, month, day)
digits and the remaining characters. -/
def parseDateExt : List Char → Option (ℕ × ℕ × ℕ × List Char)
  | y1 :: y2 :: y3 :: y4 :: s1 :: m1 :: m2 :: s2 :: d1 :: d2 :: rest =>
    if s1 = '-' ∧ s2 = '-' then
      match parseDigit y1, parseDigit y2, parseDigit y3, parseDigit y4,
            parseDigit m1, parseDigit m2, parseDigit d1, parseDigit d2 with
      | some a, some b, some c, some e, some f, some g, some p, some q =>
        some (1000 * a + 100 * b + 10 * c + e, 10 * f + g, 10 * p + q, rest)
      | _, _, _, _, _, _, _, _ => none
    else none
  | _ => none

/-- The basic (8-digit) `YYYYMMDD` date prefix the 3.11+ parser also
accepts: the (year, month, day) digits and the remaining characters. -/
def parseDateBasic : List Char → Option (ℕ × ℕ × ℕ × List Char)
  | y1 :: y2 :: y3 :: y4 :: m1 :: m2 :: d1 :: d2 :: rest =>
    match parseDigit y1, parseDigit y2, parseDigit y3, parseDigit y4,
          parseDigit m1, parseDigit m2, parseDigit d1, parseDigit d2 with
    | some a, some b, some c, some e, some f, some g, some p, some q =>
      some (1000 * a + 100 * b + 10 * c + e, 10 * f + g, 10 * p + q, rest)
    | _, _, _, _, _, _, _, _ => none
  | _ => none

/-- `fromisoformat` date scan: the dashed form, else the basic form (the
CPython parser commits to the dashed form when character 4 is a dash; on
such inputs the basic scan fails on the dash, so trying it second is
equivalent). -/
def parseDateCore (l : List Char) : Option (ℕ × ℕ × ℕ × List Char) :=
  match parseDateExt l with
  | some r => some r
  | none => parseDateBasic l

/-- Model of `datetime.fromisoformat` as `convert_date` uses it:
a calendar date in the dashed `YYYY-MM-DD` or basic `YYYYMMDD` form,
optionally followed by one separator character (CPython allows any) and a
time-of-day string; `some (year, month, day)` on acceptance, `none` (the
`ValueError` path) otherwise.  ISO week dates and ordinal dates, which
the 3.12 parser also accepts, are not modelled; no theorem below relies
on an input being rejected. -/
def parseIsoChars (l : List Char) : Option (ℕ × ℕ × ℕ) :=
  match parseDateCore l with
  | none => none
  | some (y, m, d, rest) =>
    if ValidDate y m d then
      match rest with
      | [] => some (y, m, d)
      | _ :: timeChars => if parseTimeChars timeChars then some (y, m, d) else none
    else none

/-- `datetime.fromisoformat` on a string: parse its character data. -/
def parseIso (s : String) : Option (ℕ × ℕ × ℕ) :=
  parseIsoChars s.data

/-- `strftime("%d")`: zero-padded two-digit day, as a character list. -/
def pad2chars (n : ℕ) : List Char :=
  [Nat.digitChar (n / 10 % 10), Nat.digitChar (n % 10)]

/-- `strftime("%d")`: zero-padded two-digit rendering. -/
def pad2 (n : ℕ) : String := String.mk (pad2chars n)

/-- Four-digit zero-padded rendering, the `YYYY` field of an ISO date. -/
def pad4chars (n : ℕ) : List Char :=
  [Nat.digitChar (n / 1000 % 10), Nat.digitChar (n / 100 % 10),
   Nat.digitChar (n / 10 % 10), Nat.digitChar (n % 10)]

/-- The canonical `YYYY-MM-DD` string of a (year, month, day) triple. -/
def isoString (y m d : ℕ) : String :=
  String.mk (pad4chars y ++ '-' :: pad2chars m ++ '-' :: pad2chars d)

/-- The basic-format `YYYYMMDD` string of a (year, month, day) triple. -/
def isoBasicString (y m d : ℕ) : String :=
  String.mk (pad4chars y ++ pad2chars m ++ pad2chars d)

/-- `convert_date(iso_string)`: `fromisoformat` then
`strftime("%A %d %B %Y")`; `none` models the propagated `ValueError`. -/
def convert_date (iso_string : String) : Option String :=
  match parseIso iso_string with
  | none => none
  | some (y, m, d) =>
    some (weekdayNames.getD (weekdayIndex y m d) "" ++ " " ++ pad2 d ++ " "
      ++ monthNames.getD (m - 1) "" ++ " " ++ natRepr y)

/-- One row of weather data as `generate_summary` consumes it:
`day[0]` the ISO date string, `day[1]` the low, `day[2]` the high. -/
abbrev DayRecord : Type := String × ℚ × ℚ

/-- `generate_summary(weather_data)` from `weather.py`.  The `none`
branches after the guard model the exceptions Python would raise there
(unpacking a failed lookup, an out-of-range index, a `ValueError` from
`convert_date`); only the date one is reachable. -/
def generate_summary (weather_data : List DayRecord) : Option String :=
  if weather_data = [] then some "No weather data available.\n"
  else
    let num_days := weather_data.length
    let min_temps := weather_data.map (fun day => convert_f_to_c day.2.1)
    let max_temps := weather_data.map (fun day => convert_f_to_c day.2.2)
    match find_min min_temps, find_max max_temps with
    | some (min_temp, min_index), some (max_temp, max_index) =>
      match weather_data.get? min_index, weather_data.get? max_index with
      | some minRec, some maxRec =>
        match convert_date minRec.1, convert_date maxRec.1 with
        | some min_date, some max_date =>
          let avg_low := calculate_mean min_temps
          let avg_high := calculate_mean max_temps
          some (natRepr num_days ++ " Day Overview\n  The lowest temperature will be "
            ++ format_temperature min_temp ++ ", and will occur on " ++ min_date
            ++ ".\n  The highest temperature will be " ++ format_temperature max_temp
            ++ ", and will occur on " ++ max_date
            ++ ".\n  The average low this week is "
            ++ format_temperature (round1 avg_low)
            ++ ".\n  The average high this week is "
            ++ format_temperature (round1 avg_high) ++ ".\n")
        | _, _ => none
      | _, _ => none
    | _, _ => none

/-- The loop body of `generate_daily_summary`: the list `summary_lines`,
or `none` as soon as one `convert_date` raises. -/
def dailyBlocks : List DayRecord → Option (List String)
  | [] => some []
  | day :: rest =>
    match convert_date day.1, dailyBlocks rest with
    | some date, some blocks =>
      some (("---- " ++ date ++ " ----\n  Minimum Temperature: "
        ++ format_temperature (convert_f_to_c day.2.1)
        ++ "\n  Maximum Temperature: "
        ++ format_temperature (convert_f_to_c day.2.2) ++ "\n") :: blocks)
    | _, _ => none

/-- `generate_daily_summary(weather_data)`:
the guard, then `f"{chr(10).join(summary_lines)}{chr(10)}"` — the join of
the blocks with one newline between them, plus one final newline. -/
def generate_daily_summary (weather_data : List DayRecord) : Option String :=
  if weather_data = [] then some "No daily weather data available.\n"
  else (dailyBlocks weather_data).map
    (fun summary_lines => String.intercalate "\n" summary_lines ++ "\n")

/-- The three-record example series from the specification. -/
def ex3 : List DayRecord :=
  [("2021-07-05", 34, 68), ("2021-07-06", 39, 77), ("2021-07-07", 42, 71)]

/-! ### Helper lemmas about rounding -/

theorem roundHalfEven_eq_floor (x : ℚ) (k : ℤ) (h1 : (k : ℚ) ≤ x)
    (h2 : x - k < 1 / 2) : roundHalfEven x = k := by
  have hf : ⌊x⌋ = k := by
    apply Int.floor_eq_iff.mpr
    constructor
    · exact h1
    · linarith
  unfold roundHalfEven
  rw [hf]
  rw [if_pos h2]

theorem roundHalfEven_eq_ceil (x : ℚ) (k : ℤ) (h1 : (k : ℚ) ≤ x)
    (h2 : x < (k : ℚ) + 1) (h3 : 1 / 2 < x - k) : roundHalfEven x = k + 1 := by
  have hf : ⌊x⌋ = k := by
    apply Int.floor_eq_iff.mpr
    refine ⟨h1, ?_⟩
    linarith
  unfold roundHalfEven
  rw [hf]
  rw [if_neg (by linarith), if_pos h3]

theorem round1_eq_down (x : ℚ) (k : ℤ) (h1 : (k : ℚ) ≤ x * 10)
    (h2 : x * 10 - k < 1 / 2) : round1 x = (k : ℚ) / 10 := by
  unfold round1
  rw [roundHalfEven_eq_floor (x * 10) k h1 h2]

theorem round1_eq_up (x : ℚ) (k : ℤ) (h1 : (k : ℚ) ≤ x * 10)
    (h2 : x * 10 < (k : ℚ) + 1) (h3 : 1 / 2 < x * 10 - k) :
    round1 x = ((k + 1 : ℤ) : ℚ) / 10 := by
  unfold round1
  rw [roundHalfEven_eq_ceil (x * 10) k h1 h2 h3]

theorem abs_roundHalfEven_sub (x : ℚ) : |(roundHalfEven x : ℚ) - x| ≤ 1 / 2 := by
  have hle : (⌊x⌋ : ℚ) ≤ x := Int.floor_le x
  have hlt : x < ⌊x⌋ + 1 := Int.lt_floor_add_one x
  unfold roundHalfEven
  split_ifs with ha hb hc
  · rw [abs_le]; constructor <;> linarith
  · rw [abs_le]; push_cast; constructor <;> linarith
  · rw [abs_le]
    have : x - ⌊x⌋ = 1 / 2 := le_antisymm (not_lt.mp hb) (not_lt.mp ha)
    constructor <;> linarith
  · rw [abs_le]
    have : x - ⌊x⌋ = 1 / 2 := le_antisymm (not_lt.mp hb) (not_lt.mp ha)
    push_cast
    constructor <;> linarith

/-! ### Helper lemmas about the backward index scan and the fold -/

theorem findRevRange_some (p : ℕ → Bool) :
    ∀ n i, ((List.range n).reverse.find? p = some i) →
      i < n ∧ p i = true ∧ ∀ j, i < j → j < n → p j = false := by
  intro n
  induction n with
  | zero => intro i h; simp at h
  | succ n ih =>
    intro i h
    rw [List.range_succ, List.reverse_append] at h
    simp only [List.reverse_singleton, List.singleton_append] at h
    by_cases hp : p n
    · rw [List.find?_cons_of_pos _ hp] at h
      have hi : i = n := by injection h with h2; omega
      refine ⟨by omega, by rw [hi]; exact hp, fun j hj1 hj2 => ?_⟩
      exact absurd hj2 (by omega)
    · rw [List.find?_cons_of_neg _ (by simpa using hp)] at h
      obtain ⟨h1, h2, h3⟩ := ih i h
      refine ⟨by omega, h2, fun j hj1 hj2 => ?_⟩
      rcases Nat.lt_or_ge j n with hj | hj
      · exact h3 j hj1 hj
      · have : j = n := by omega
        subst this
        simpa using hp

theorem findRevRange_isSome (p : ℕ → Bool) (n j : ℕ) (hj : j < n)
    (hpj : p j = true) : ∃ i, (List.range n).reverse.find? p = some i := by
  rcases h : (List.range n).reverse.find? p with _ | i
  case none =>
    exfalso
    have hmem : j ∈ (List.range n).reverse := by
      rw [List.mem_reverse, List.mem_range]
      exact hj
    have := List.find?_eq_none.mp h j hmem
    simp [hpj] at this
  case some => exact ⟨i, rfl⟩

theorem foldl_min_le_init (ts : List ℚ) : ∀ t : ℚ, ts.foldl min t ≤ t := by
  induction ts with
  | nil => intro t; simp
  | cons a ts ih =>
    intro t
    calc List.foldl min (min t a) ts ≤ min t a := ih (min t a)
    _ ≤ t := min_le_left _ _

theorem foldl_min_le_mem (ts : List ℚ) :
    ∀ t x : ℚ, x ∈ ts → ts.foldl min t ≤ x := by
  induction ts with
  | nil => intro t x hx; simp at hx
  | cons a ts ih =>
    intro t x hx
    rcases List.mem_cons.mp hx with rfl | hx
    · calc List.foldl min (min t x) ts ≤ min t x := foldl_min_le_init ts _
      _ ≤ x := min_le_right _ _
    · exact ih (min t a) x hx

theorem foldl_min_mem (ts : List ℚ) :
    ∀ t : ℚ, ts.foldl min t = t ∨ ts.foldl min t ∈ ts := by
  induction ts with
  | nil => intro t; left; rfl
  | cons a ts ih =>
    intro t
    rcases ih (min t a) with h | h
    · rcases min_choice t a with hm | hm
      · left
        rw [List.foldl_cons, h, hm]
      · right
        rw [List.mem_cons]
        left
        rw [List.foldl_cons, h, hm]
    · right
      rw [List.mem_cons]
      right
      exact h

theorem foldl_max_init_le (ts : List ℚ) : ∀ t : ℚ, t ≤ ts.foldl max t := by
  induction ts with
  | nil => intro t; simp
  | cons a ts ih =>
    intro t
    calc t ≤ max t a := le_max_left _ _
    _ ≤ List.foldl max (max t a) ts := ih (max t a)

theorem foldl_max_mem_le (ts : List ℚ) :
    ∀ t x : ℚ, x ∈ ts → x ≤ ts.foldl max t := by
  induction ts with
  | nil => intro t x hx; simp at hx
  | cons a ts ih =>
    intro t x hx
    rcases List.mem_cons.mp hx with rfl | hx
    · calc x ≤ max t x := le_max_right _ _
      _ ≤ List.foldl max (max t x) ts := foldl_max_init_le ts _
    · exact ih (max t a) x hx

theorem foldl_max_mem (ts : List ℚ) :
    ∀ t : ℚ, ts.foldl max t = t ∨ ts.foldl max t ∈ ts := by
  induction ts with
  | nil => intro t; left; rfl
  | cons a ts ih =>
    intro t
    rcases ih (max t a) with h | h
    · rcases max_choice t a with hm | hm
      · left
        rw [List.foldl_cons, h, hm]
      · right
        rw [List.mem_cons]
        left
        rw [List.foldl_cons, h, hm]
    · right
      rw [List.mem_cons]
      right
      exact h

/-- Full characterisation of `find_min` on a non-empty list: it returns the
list minimum together with the largest index holding it. -/
theorem find_min_eq (l : List ℚ) (h : l ≠ []) :
    ∃ m i, find_min l = some (m, i) ∧ i < l.length ∧ l.getD i 0 = m ∧
      (∀ x ∈ l, m ≤ x) ∧ ∀ j, j < l.length → l.getD j 0 = m → j ≤ i := by
  match l with
  | [] => exact absurd rfl h
  | t :: ts =>
    set m := ts.foldl min t with hm
    have hmem : m ∈ t :: ts := by
      rcases foldl_min_mem ts t with h1 | h1
      · rw [List.mem_cons]; left; exact h1
      · rw [List.mem_cons]; right; exact h1
    have hlb : ∀ x ∈ t :: ts, m ≤ x := by
      intro x hx
      rcases List.mem_cons.mp hx with rfl | hx
      · exact foldl_min_le_init ts x
      · exact foldl_min_le_mem ts t x hx
    obtain ⟨j, hj, hgj⟩ := List.mem_iff_getElem.mp hmem
    have hpj : (fun i => decide ((t :: ts).getD i 0 = m)) j = true := by
      simp only [decide_eq_true_eq]
      rw [List.getD_eq_getElem _ _ hj]
      exact hgj
    obtain ⟨i, hi⟩ :=
      findRevRange_isSome (fun i => decide ((t :: ts).getD i 0 = m))
        (t :: ts).length j hj hpj
    obtain ⟨hilt, hpi, hmax⟩ := findRevRange_some _ _ _ hi
    refine ⟨m, i, ?_, hilt, by simpa using hpi, hlb, ?_⟩
    · simp only [find_min, ← hm]
      rw [hi]
      rfl
    · intro j2 hj2 hgj2
      by_contra hcon
      have hlt : i < j2 := by omega
      have h2 := hmax j2 hlt hj2
      rw [decide_eq_false_iff_not] at h2
      exact h2 hgj2

/-- Full characterisation of `find_max` on a non-empty list: it returns the
list maximum together with the largest index holding it. -/
theorem find_max_eq (l : List ℚ) (h : l ≠ []) :
    ∃ m i, find_max l = some (m, i) ∧ i < l.length ∧ l.getD i 0 = m ∧
      (∀ x ∈ l, x ≤ m) ∧ ∀ j, j < l.length → l.getD j 0 = m → j ≤ i := by
  match l with
  | [] => exact absurd rfl h
  | t :: ts =>
    set m := ts.foldl max t with hm
    have hmem : m ∈ t :: ts := by
      rcases foldl_max_mem ts t with h1 | h1
      · rw [List.mem_cons]; left; exact h1
      · rw [List.mem_cons]; right; exact h1
    have hub : ∀ x ∈ t :: ts, x ≤ m := by
      intro x hx
      rcases List.mem_cons.mp hx with rfl | hx
      · exact foldl_max_init_le ts x
      · exact foldl_max_mem_le ts t x hx
    obtain ⟨j, hj, hgj⟩ := List.mem_iff_getElem.mp hmem
    have hpj : (fun i => decide ((t :: ts).getD i 0 = m)) j = true := by
      simp only [decide_eq_true_eq]
      rw [List.getD_eq_getElem _ _ hj]
      exact hgj
    obtain ⟨i, hi⟩ :=
      findRevRange_isSome (fun i => decide ((t :: ts).getD i 0 = m))
        (t :: ts).length j hj hpj
    obtain ⟨hilt, hpi, hmax⟩ := findRevRange_some _ _ _ hi
    refine ⟨m, i, ?_, hilt, by simpa using hpi, hub, ?_⟩
    · simp only [find_max, ← hm]
      rw [hi]
      rfl
    · intro j2 hj2 hgj2
      by_contra hcon
      have hlt : i < j2 := by omega
      have h2 := hmax j2 hlt hj2
      rw [decide_eq_false_iff_not] at h2
      exact h2 hgj2

/-- `calculate_mean` on a non-empty list is the sum divided by the length. -/
theorem calculate_mean_ne (l : List ℚ) (h : l ≠ []) :
    calculate_mean l = l.sum / l.length := by
  unfold calculate_mean
  rw [if_neg h]
  simp

/-! ### Helper lemmas about date parsing and rendering -/

theorem parseDigit_digitChar : ∀ k : ℕ, k ≤ 9 → parseDigit (Nat.digitChar k) = some k := by
  decide

theorem monthLength_le (y m : ℕ) : monthLength y m ≤ 31 := by
  unfold monthLength
  split <;> first | (split_ifs <;> omega) | omega

theorem parseDateExt_pad (y m d : ℕ) (hy : y ≤ 9999) (hm : m ≤ 99) (hd : d ≤ 99) :
    parseDateExt (pad4chars y ++ '-' :: pad2chars m ++ '-' :: pad2chars d)
      = some (y, m, d, []) := by
  have e1 : parseDigit (Nat.digitChar (y / 1000 % 10)) = some (y / 1000 % 10) :=
    parseDigit_digitChar _ (by omega)
  have e2 : parseDigit (Nat.digitChar (y / 100 % 10)) = some (y / 100 % 10) :=
    parseDigit_digitChar _ (by omega)
  have e3 : parseDigit (Nat.digitChar (y / 10 % 10)) = some (y / 10 % 10) :=
    parseDigit_digitChar _ (by omega)
  have e4 : parseDigit (Nat.digitChar (y % 10)) = some (y % 10) :=
    parseDigit_digitChar _ (by omega)
  have f1 : parseDigit (Nat.digitChar (m / 10 % 10)) = some (m / 10 % 10) :=
    parseDigit_digitChar _ (by omega)
  have f2 : parseDigit (Nat.digitChar (m % 10)) = some (m % 10) :=
    parseDigit_digitChar _ (by omega)
  have g1 : parseDigit (Nat.digitChar (d / 10 % 10)) = some (d / 10 % 10) :=
    parseDigit_digitChar _ (by omega)
  have g2 : parseDigit (Nat.digitChar (d % 10)) = some (d % 10) :=
    parseDigit_digitChar _ (by omega)
  have hyrec : 1000 * (y / 1000 % 10) + 100 * (y / 100 % 10) + 10 * (y / 10 % 10) + y % 10 = y := by
    omega
  have hmrec : 10 * (m / 10 % 10) + m % 10 = m := by omega
  have hdrec : 10 * (d / 10 % 10) + d % 10 = d := by omega
  unfold pad4chars pad2chars
  simp only [List.cons_append, List.nil_append]
  unfold parseDateExt
  dsimp only []
  rw [if_pos ⟨rfl, rfl⟩]
  rw [e1, e2, e3, e4, f1, f2, g1, g2]
  dsimp only []
  rw [hyrec, hmrec, hdrec]

theorem parseDateBasic_pad (y m d : ℕ) (hy : y ≤ 9999) (hm : m ≤ 99) (hd : d ≤ 99) :
    parseDateBasic (pad4chars y ++ pad2chars m ++ pad2chars d)
      = some (y, m, d, []) := by
  have e1 : parseDigit (Nat.digitChar (y / 1000 % 10)) = some (y / 1000 % 10) :=
    parseDigit_digitChar _ (by omega)
  have e2 : parseDigit (Nat.digitChar (y / 100 % 10)) = some (y / 100 % 10) :=
    parseDigit_digitChar _ (by omega)
  have e3 : parseDigit (Nat.digitChar (y / 10 % 10)) = some (y / 10 % 10) :=
    parseDigit_digitChar _ (by omega)
  have e4 : parseDigit (Nat.digitChar (y % 10)) = some (y % 10) :=
    parseDigit_digitChar _ (by omega)
  have f1 : parseDigit (Nat.digitChar (m / 10 % 10)) = some (m / 10 % 10) :=
    parseDigit_digitChar _ (by omega)
  have f2 : parseDigit (Nat.digitChar (m % 10)) = some (m % 10) :=
    parseDigit_digitChar _ (by omega)
  have g1 : parseDigit (Nat.digitChar (d / 10 % 10)) = some (d / 10 % 10) :=
    parseDigit_digitChar _ (by omega)
  have g2 : parseDigit (Nat.digitChar (d % 10)) = some (d % 10) :=
    parseDigit_digitChar _ (by omega)
  have hyrec : 1000 * (y / 1000 % 10) + 100 * (y / 100 % 10) + 10 * (y / 10 % 10) + y % 10 = y := by
    omega
  have hmrec : 10 * (m / 10 % 10) + m % 10 = m := by omega
  have hdrec : 10 * (d / 10 % 10) + d % 10 = d := by omega
  unfold pad4chars pad2chars
  simp only [List.cons_append, List.nil_append]
  unfold parseDateBasic
  dsimp only []
  rw [e1, e2, e3, e4, f1, f2, g1, g2]
  dsimp only []
  rw [hyrec, hmrec, hdrec]

theorem parseIso_isoString (y m d : ℕ) (h : ValidDate y m d) :
    parseIso (isoString y m d) = some (y, m, d) := by
  obtain ⟨⟨hy1, hy2⟩, ⟨hm1, hm2⟩, hd1, hd2⟩ := h
  have hd31 : d ≤ 31 := le_trans hd2 (monthLength_le y m)
  have hext : parseDateExt (pad4chars y ++ '-' :: pad2chars m ++ '-' :: pad2chars d)
      = some (y, m, d, []) := parseDateExt_pad y m d (by omega) (by omega) (by omega)
  unfold parseIso isoString
  show parseIsoChars (pad4chars y ++ '-' :: pad2chars m ++ '-' :: pad2chars d) = some (y, m, d)
  unfold parseIsoChars parseDateCore
  rw [hext]
  dsimp only []
  rw [if_pos ⟨⟨hy1, hy2⟩, ⟨hm1, hm2⟩, hd1, hd2⟩]

theorem parseIso_isoBasicString (y m d : ℕ) (h : ValidDate y m d) :
    parseIso (isoBasicString y m d) = some (y, m, d) := by
  obtain ⟨⟨hy1, hy2⟩, ⟨hm1, hm2⟩, hd1, hd2⟩ := h
  have hd31 : d ≤ 31 := le_trans hd2 (monthLength_le y m)
  have hbasic : parseDateBasic (pad4chars y ++ pad2chars m ++ pad2chars d)
      = some (y, m, d, []) := parseDateBasic_pad y m d (by omega) (by omega) (by omega)
  have hext : parseDateExt (pad4chars y ++ pad2chars m ++ pad2chars d) = none := by
    unfold pad4chars pad2chars
    simp only [List.cons_append, List.nil_append]
    rfl
  unfold parseIso isoBasicString
  show parseIsoChars (pad4chars y ++ pad2chars m ++ pad2chars d) = some (y, m, d)
  unfold parseIsoChars parseDateCore
  rw [hext]
  dsimp only []
  rw [hbasic]
  dsimp only []
  rw [if_pos ⟨⟨hy1, hy2⟩, ⟨hm1, hm2⟩, hd1, hd2⟩]

/-- Whatever string shape `parseIsoChars` accepts, the returned triple has
passed the calendar validity check. -/
theorem parseIsoChars_valid (l : List Char) (y m d : ℕ)
    (h : parseIsoChars l = some (y, m, d)) : ValidDate y m d := by
  unfold parseIsoChars at h
  rcases hd : parseDateCore l with _ | ⟨y2, m2, d2, rest⟩ <;> rw [hd] at h
  · exact Option.noConfusion h
  dsimp only [] at h
  split_ifs at h with hvalid
  · rcases rest with _ | ⟨c, tc⟩
    · injection h with h2
      rw [Prod.mk.injEq, Prod.mk.injEq] at h2
      obtain ⟨hy, hm, hdd⟩ := h2
      subst hy
      subst hm
      subst hdd
      exact hvalid
    · dsimp only [] at h
      split_ifs at h with ht
      injection h with h2
      rw [Prod.mk.injEq, Prod.mk.injEq] at h2
      obtain ⟨hy, hm, hdd⟩ := h2
      subst hy
      subst hm
      subst hdd
      exact hvalid

/-- The weekday name `convert_date` renders is one of the seven names. -/
theorem weekdayName_mem (y m d : ℕ) :
    weekdayNames.getD (weekdayIndex y m d) "" ∈ weekdayNames := by
  have hlt : weekdayIndex y m d < weekdayNames.length := by
    show weekdayIndex y m d < 7
    exact Nat.mod_lt _ (by norm_num)
  rw [List.getD_eq_getElem _ _ hlt]
  exact List.getElem_mem hlt

/-- Every successful `convert_date` result is the rendering of a valid
calendar date in the fixed weekday/day/month/year format. -/
theorem convert_date_sound (s : String) (out : String)
    (h : convert_date s = some out) :
    ∃ y m d w, ValidDate y m d ∧ w ∈ weekdayNames
      ∧ out = w ++ " " ++ pad2 d ++ " " ++ monthNames.getD (m - 1) "" ++ " " ++ natRepr y := by
  unfold convert_date at h
  rcases hp : parseIso s with _ | ⟨y, m, d⟩ <;> rw [hp] at h
  · exact Option.noConfusion h
  injection h with h2
  exact ⟨y, m, d, weekdayNames.getD (weekdayIndex y m d) "",
    parseIsoChars_valid s.data y m d hp, weekdayName_mem y m d, h2.symm⟩

theorem dailyBlocks_none (l : List DayRecord) (r : DayRecord) (hr : r ∈ l)
    (hcd : convert_date r.1 = none) : dailyBlocks l = none := by
  induction l with
  | nil => cases hr
  | cons day rest ih =>
    rcases List.mem_cons.mp hr with rfl | hr2
    · unfold dailyBlocks
      rw [hcd]
    · unfold dailyBlocks
      rw [ih hr2]
      rcases hcd2 : convert_date day.1 with _ | dd <;> rfl

theorem generate_daily_summary_bad_date (series : List DayRecord) (r : DayRecord)
    (hr : r ∈ series) (hcd : convert_date r.1 = none) :
    generate_daily_summary series = none := by
  have hne : series ≠ [] := by
    rintro rfl
    cases hr
  unfold generate_daily_summary
  rw [if_neg hne, dailyBlocks_none series r hr hcd]
  rfl

theorem generate_summary_all_bad (series : List DayRecord) (hne : series ≠ [])
    (hall : ∀ r ∈ series, convert_date r.1 = none) :
    generate_summary series = none := by
  obtain ⟨vmin, imin, hfm, hltm, _⟩ :=
    find_min_eq (series.map fun day => convert_f_to_c day.2.1) (by simpa using hne)
  obtain ⟨vmax, imax, hfx, hltx, _⟩ :=
    find_max_eq (series.map fun day => convert_f_to_c day.2.2) (by simpa using hne)
  rw [List.length_map] at hltm hltx
  have hg1 : series.get? imin = some (series.get ⟨imin, hltm⟩) := List.get?_eq_get _
  have hg2 : series.get? imax = some (series.get ⟨imax, hltx⟩) := List.get?_eq_get _
  have hc1 : convert_date (series.get ⟨imin, hltm⟩).1 = none :=
    hall _ (List.get_mem _ _ _)
  unfold generate_summary
  rw [if_neg hne]
  dsimp only []
  rw [hfm, hfx]
  dsimp only []
  rw [hg1, hg2]
  dsimp only []
  rw [hc1]

/-! ### Evaluation helpers for concrete rational values -/

theorem reprQ1_int_div_ten (k : ℤ) :
    reprQ1 ((k : ℚ) / 10)
      = (if k < 0 then "-" else "") ++ natRepr (k.natAbs / 10) ++ "."
        ++ natRepr (k.natAbs % 10) := by
  unfold reprQ1
  have h10 : ((k : ℚ) / 10) * 10 = (k : ℚ) := by
    rw [div_mul_cancel₀ _ (by norm_num : (10 : ℚ) ≠ 0)]
  rw [h10, Int.floor_intCast]

theorem format_temperature_eval (x : ℚ) (k : ℤ) (hx : x = (k : ℚ) / 10) :
    format_temperature x = (if k < 0 then "-" else "") ++ natRepr (k.natAbs / 10) ++ "."
      ++ natRepr (k.natAbs % 10) ++ DEGREE_SYMBOL := by
  unfold format_temperature
  rw [hx, reprQ1_int_div_ten]

theorem convert_f_to_c_eval_down (t : ℚ) (k : ℤ)
    (h1 : (k : ℚ) ≤ (t - 32) * 5 / 9 * 10)
    (h2 : (t - 32) * 5 / 9 * 10 - k < 1 / 2) :
    convert_f_to_c t = (k : ℚ) / 10 := by
  unfold convert_f_to_c
  exact round1_eq_down _ k h1 h2

theorem convert_f_to_c_eval_up (t : ℚ) (k : ℤ)
    (h1 : (k : ℚ) ≤ (t - 32) * 5 / 9 * 10)
    (h2 : (t - 32) * 5 / 9 * 10 < (k : ℚ) + 1)
    (h3 : 1 / 2 < (t - 32) * 5 / 9 * 10 - k) :
    convert_f_to_c t = ((k + 1 : ℤ) : ℚ) / 10 := by
  unfold convert_f_to_c
  exact round1_eq_up _ k h1 h2 h3

theorem dailyBlocks_example :
    dailyBlocks [("2021-07-06", 32, 41)]
      = some ["---- Tuesday 06 July 2021 ----\n  Minimum Temperature: 0.0°C\n  Maximum Temperature: 5.0°C\n"] := by
  have h32 : format_temperature (convert_f_to_c 32) = "0.0°C" := by
    rw [format_temperature_eval _ 0 (convert_f_to_c_eval_down 32 0 (by norm_num) (by norm_num))]
    decide
  have h41 : format_temperature (convert_f_to_c 41) = "5.0°C" := by
    rw [format_temperature_eval _ 50 (convert_f_to_c_eval_down 41 50 (by norm_num) (by norm_num))]
    decide
  unfold dailyBlocks
  rw [show convert_date "2021-07-06" = some "Tuesday 06 July 2021" from by decide]
  dsimp only []
  rw [h32, h41]
  decide

/-! ### Claim theorems -/

/-- C1: for every non-empty numeric sequence, `find_min` and `find_max`
return the extreme value together with the highest index at which that
extreme value occurs (never an earlier occurrence); in particular
`find_min [1.0, 3.0, 1.0] = (1.0, 2)` and `find_max [1.0, 3.0, 3.0] = (3.0, 2)`. -/
theorem claim_C1_extremes_last_index :
    (∀ l : List ℚ, l ≠ [] → ∃ m i, find_min l = some (m, i) ∧ i < l.length ∧
      l.getD i 0 = m ∧ (∀ x ∈ l, m ≤ x) ∧
      ∀ j, j < l.length → l.getD j 0 = m → j ≤ i)
    ∧ (∀ l : List ℚ, l ≠ [] → ∃ m i, find_max l = some (m, i) ∧ i < l.length ∧
      l.getD i 0 = m ∧ (∀ x ∈ l, x ≤ m) ∧
      ∀ j, j < l.length → l.getD j 0 = m → j ≤ i)
    ∧ find_min [1, 3, 1] = some (1, 2)
    ∧ find_max [1, 3, 3] = some (3, 2) := by
  refine ⟨find_min_eq, find_max_eq, ?_, ?_⟩ <;> decide

/-- Witness for C1 at the concrete list `[1.0, 3.0, 1.0]`. -/
theorem claim_C1_witness :
    ∃ m i, find_min [1, 3, 1] = some (m, i) ∧ i < ([1, 3, 1] : List ℚ).length ∧
      ([1, 3, 1] : List ℚ).getD i 0 = m ∧ (∀ x ∈ ([1, 3, 1] : List ℚ), m ≤ x) ∧
      ∀ j, j < ([1, 3, 1] : List ℚ).length → ([1, 3, 1] : List ℚ).getD j 0 = m → j ≤ i :=
  claim_C1_extremes_last_index.1 [1, 3, 1] (by decide)

/-- C3: `calculate_mean` returns `0.0` for the empty sequence (explicit
guard, no division-by-zero error), and the sum divided by the count for
every non-empty sequence; on the example list it returns `52.90375`. -/
theorem claim_C3_mean :
    calculate_mean [] = 0
    ∧ (∀ l : List ℚ, l ≠ [] → calculate_mean l = l.sum / l.length)
    ∧ calculate_mean [51.0, 58.2, 59.9, 52.4, 52.1, 48.4, 47.8, 53.43] = 52.90375 := by
  refine ⟨rfl, calculate_mean_ne, ?_⟩
  rw [calculate_mean_ne _ (by simp)]
  norm_num

/-- Witness for C3 at the concrete eight-element example list. -/
theorem claim_C3_witness :
    calculate_mean [51.0, 58.2, 59.9, 52.4, 52.1, 48.4, 47.8, 53.43]
      = ([51.0, 58.2, 59.9, 52.4, 52.1, 48.4, 47.8, 53.43] : List ℚ).sum
        / ([51.0, 58.2, 59.9, 52.4, 52.1, 48.4, 47.8, 53.43] : List ℚ).length :=
  claim_C3_mean.2.1 [51.0, 58.2, 59.9, 52.4, 52.1, 48.4, 47.8, 53.43] (by simp)

/-- C4: `convert_f_to_c` computes `(tempF - 32) * 5/9` rounded to exactly
one decimal place (the result is a multiple of `1/10` within `1/20` of the
exact value), under the single consistent round-half-to-even rule
(a decimal midpoint always rounds to the even neighbour); in particular
`convert_f_to_c 32 = 0.0` and `convert_f_to_c 100 = 37.8`.  It is a pure
function with no error conditions. -/
theorem claim_C4_fahrenheit_to_celsius :
    (∀ t : ℚ, ∃ k : ℤ, convert_f_to_c t = (k : ℚ) / 10 ∧
      |convert_f_to_c t - (t - 32) * 5 / 9| ≤ 1 / 20)
    ∧ (∀ x : ℚ, x - ⌊x⌋ = 1 / 2 → roundHalfEven x % 2 = 0)
    ∧ convert_f_to_c 32 = 0 ∧ convert_f_to_c 100 = 37.8 := by
  refine ⟨?_, ?_, ?_, ?_⟩
  · intro t
    refine ⟨roundHalfEven ((t - 32) * 5 / 9 * 10), rfl, ?_⟩
    have h := abs_roundHalfEven_sub ((t - 32) * 5 / 9 * 10)
    have heq : convert_f_to_c t - (t - 32) * 5 / 9
        = ((roundHalfEven ((t - 32) * 5 / 9 * 10) : ℚ) - (t - 32) * 5 / 9 * 10) / 10 := by
      unfold convert_f_to_c round1
      ring
    rw [heq, abs_div]
    rw [abs_of_pos (by norm_num : (0 : ℚ) < 10)]
    linarith
  · intro x hx
    unfold roundHalfEven
    rw [if_neg (by rw [hx]; norm_num), if_neg (by rw [hx]; norm_num)]
    split_ifs with hpar
    · exact hpar
    · omega
  · have h32 : convert_f_to_c 32 = round1 0 := by
      unfold convert_f_to_c
      norm_num
    rw [h32, round1_eq_down 0 0 (by norm_num) (by norm_num)]
    norm_num
  · have h100 : convert_f_to_c 100 = round1 (340 / 9) := by
      unfold convert_f_to_c
      norm_num
    rw [h100, round1_eq_up (340 / 9) 377 (by norm_num) (by norm_num) (by norm_num)]
    norm_num

/-- Witness for C4: the tie-break conjunct at the concrete midpoint `1/2`. -/
theorem claim_C4_witness :
    ((1 : ℚ) / 2 - (⌊(1 : ℚ) / 2⌋ : ℚ) = 1 / 2) ∧ roundHalfEven ((1 : ℚ) / 2) % 2 = 0 :=
  ⟨by norm_num, claim_C4_fahrenheit_to_celsius.2.1 ((1 : ℚ) / 2) (by norm_num)⟩

/-- C5: on the empty series both report builders return their dedicated
fixed text, not an exception. -/
theorem claim_C5_empty_series_fixed_text :
    generate_summary [] = some "No weather data available.\n"
    ∧ generate_daily_summary [] = some "No daily weather data available.\n" :=
  ⟨rfl, rfl⟩

/-- C6: `find_min` and `find_max` return an empty result on the empty
sequence, and the element (cast to a float, the identity here) paired with
index 0 on every single-element sequence. -/
theorem claim_C6_empty_and_singleton :
    find_min [] = none ∧ find_max [] = none
    ∧ ∀ x : ℚ, find_min [x] = some (x, 0) ∧ find_max [x] = some (x, 0) := by
  refine ⟨rfl, rfl, fun x => ⟨?_, ?_⟩⟩
  · have hr : (List.range 1).reverse = [0] := by decide
    simp [find_min, hr, List.find?]
  · have hr : (List.range 1).reverse = [0] := by decide
    simp [find_max, hr, List.find?]

/-- C10: on every non-empty list the backward scan of `find_min`/`find_max`
reaches its `return` (the fall-through is unreachable) with an index inside
`[0, length)`; hence in `generate_summary` the tuple unpacking succeeds and
the date lookups `weather_data[min_index][0]`/`weather_data[max_index][0]`
are in bounds. -/
theorem claim_C10_scan_always_returns :
    (∀ l : List ℚ, l ≠ [] → ∃ v i, find_min l = some (v, i) ∧ i < l.length)
    ∧ (∀ l : List ℚ, l ≠ [] → ∃ v i, find_max l = some (v, i) ∧ i < l.length)
    ∧ ∀ series : List DayRecord, series ≠ [] →
      ∃ vmin imin vmax imax rmin rmax,
        find_min (series.map (fun day => convert_f_to_c day.2.1)) = some (vmin, imin)
        ∧ find_max (series.map (fun day => convert_f_to_c day.2.2)) = some (vmax, imax)
        ∧ series.get? imin = some rmin ∧ series.get? imax = some rmax := by
  refine ⟨?_, ?_, ?_⟩
  · intro l h
    obtain ⟨m, i, h1, h2, _⟩ := find_min_eq l h
    exact ⟨m, i, h1, h2⟩
  · intro l h
    obtain ⟨m, i, h1, h2, _⟩ := find_max_eq l h
    exact ⟨m, i, h1, h2⟩
  · intro series h
    have hm : series.map (fun day => convert_f_to_c day.2.1) ≠ [] := by
      simpa using h
    have hx : series.map (fun day => convert_f_to_c day.2.2) ≠ [] := by
      simpa using h
    obtain ⟨vmin, imin, hfm, hltm, _⟩ := find_min_eq _ hm
    obtain ⟨vmax, imax, hfx, hltx, _⟩ := find_max_eq _ hx
    rw [List.length_map] at hltm hltx
    refine ⟨vmin, imin, vmax, imax, series.get ⟨imin, hltm⟩, series.get ⟨imax, hltx⟩,
      hfm, hfx, ?_, ?_⟩ <;> rw [List.get?_eq_get]

/-- Witness for C10 at a concrete one-record series. -/
theorem claim_C10_witness :
    ∃ vmin imin vmax imax rmin rmax,
      find_min (([("2021-07-06", 32, 41)] : List DayRecord).map
        (fun day => convert_f_to_c day.2.1)) = some (vmin, imin)
      ∧ find_max (([("2021-07-06", 32, 41)] : List DayRecord).map
        (fun day => convert_f_to_c day.2.2)) = some (vmax, imax)
      ∧ ([("2021-07-06", 32, 41)] : List DayRecord).get? imin = some rmin
      ∧ ([("2021-07-06", 32, 41)] : List DayRecord).get? imax = some rmax :=
  claim_C10_scan_always_returns.2.2 [("2021-07-06", 32, 41)] (by simp)

/-- Counterexample to C7 as stated: `"2021-07-06T00:00:00"` is a
date-time, not an ISO calendar date (its 19 characters can be neither the
10-character dashed nor the 8-character basic calendar-date form), yet
`convert_date` accepts it and renders its date part instead of failing
with a ParseError. -/
theorem claim_C7_counterexample :
    convert_date "2021-07-06T00:00:00" = some "Tuesday 06 July 2021"
    ∧ ("2021-07-06T00:00:00" : String).data.length = 19 := by
  constructor <;> decide

/-- C7 (amended): `convert_date` maps every valid ISO calendar date
string — the dashed `YYYY-MM-DD` form and the 8-digit basic form the
CPython 3.12 parser also accepts — to
"full-weekday zero-padded-day full-month year" with a genuine weekday
name, e.g. `"2021-07-06"` (and `"20210706"`) to
`"Tuesday 06 July 2021"`; every successful call returns exactly such a
rendering of a valid calendar date; but it does not fail on every
non-calendar-date input, since `datetime.fromisoformat` also accepts
other ISO-8601 forms such as date-times.  A date error propagates
uncaught through the report builders, which then return no (partial)
report string. -/
theorem claim_C7_format_date :
    (∀ y m d, ValidDate y m d → ∃ w, w ∈ weekdayNames ∧
      convert_date (isoString y m d)
        = some (w ++ " " ++ pad2 d ++ " " ++ monthNames.getD (m - 1) "" ++ " " ++ natRepr y))
    ∧ (∀ y m d, ValidDate y m d → ∃ w, w ∈ weekdayNames ∧
      convert_date (isoBasicString y m d)
        = some (w ++ " " ++ pad2 d ++ " " ++ monthNames.getD (m - 1) "" ++ " " ++ natRepr y))
    ∧ (∀ s out : String, convert_date s = some out →
        ∃ y m d w, ValidDate y m d ∧ w ∈ weekdayNames
          ∧ out = w ++ " " ++ pad2 d ++ " " ++ monthNames.getD (m - 1) "" ++ " " ++ natRepr y)
    ∧ convert_date "2021-07-06" = some "Tuesday 06 July 2021"
    ∧ convert_date "20210706" = some "Tuesday 06 July 2021"
    ∧ (∀ y m d, (isoString y m d).data.length = 10 ∧ (isoBasicString y m d).data.length = 8)
    ∧ (∀ (series : List DayRecord) (r : DayRecord), r ∈ series →
        convert_date r.1 = none → generate_daily_summary series = none)
    ∧ (∀ series : List DayRecord, series ≠ [] →
        (∀ r ∈ series, convert_date r.1 = none) → generate_summary series = none) := by
  refine ⟨?_, ?_, convert_date_sound, by decide, by decide, ?_,
    generate_daily_summary_bad_date, generate_summary_all_bad⟩
  · intro y m d h
    refine ⟨weekdayNames.getD (weekdayIndex y m d) "", weekdayName_mem y m d, ?_⟩
    unfold convert_date
    rw [parseIso_isoString y m d h]
  · intro y m d h
    refine ⟨weekdayNames.getD (weekdayIndex y m d) "", weekdayName_mem y m d, ?_⟩
    unfold convert_date
    rw [parseIso_isoBasicString y m d h]
  · intro y m d
    constructor <;> simp [isoString, isoBasicString, pad4chars, pad2chars]

/-- Witness for C7 (amended): the first conjunct at the concrete date
2021-07-06. -/
theorem claim_C7_witness :
    ∃ w, w ∈ weekdayNames ∧ convert_date (isoString 2021 7 6)
      = some (w ++ " " ++ pad2 6 ++ " " ++ monthNames.getD (7 - 1) "" ++ " " ++ natRepr 2021) :=
  claim_C7_format_date.1 2021 7 6 (by decide)

/-- Structure of the block list built by `generate_daily_summary`: one
three-line newline-terminated block per record, in series order. -/
theorem dailyBlocks_eq (l : List DayRecord) :
    ∀ blocks : List String, dailyBlocks l = some blocks →
      blocks.length = l.length ∧
      ∀ i r, l.get? i = some r → ∃ date, convert_date r.1 = some date ∧
        blocks.get? i = some ("---- " ++ date ++ " ----\n  Minimum Temperature: "
          ++ format_temperature (convert_f_to_c r.2.1)
          ++ "\n  Maximum Temperature: "
          ++ format_temperature (convert_f_to_c r.2.2) ++ "\n") := by
  induction l with
  | nil =>
    intro blocks h
    injection h with h
    subst h
    refine ⟨rfl, ?_⟩
    intro i r hir
    cases i <;> exact Option.noConfusion hir
  | cons day rest ih =>
    intro blocks h
    unfold dailyBlocks at h
    rcases hcd : convert_date day.1 with _ | date <;> rw [hcd] at h
    · exact Option.noConfusion h
    rcases hdb : dailyBlocks rest with _ | bs <;> rw [hdb] at h
    · exact Option.noConfusion h
    dsimp only [] at h
    injection h with h
    subst h
    obtain ⟨hlen, hidx⟩ := ih bs hdb
    refine ⟨by simp [hlen], ?_⟩
    intro i r hir
    cases i with
    | zero =>
      injection hir with hir
      subst hir
      exact ⟨date, hcd, rfl⟩
    | succ i => exact hidx i r hir

/-- Counterexample to C2 as stated: on a one-record series the whole daily
summary ends with two newline characters (a trailing blank line after the
last block), not with exactly one trailing newline. -/
theorem claim_C2_counterexample :
    generate_daily_summary [("2021-07-06", 32, 41)]
      = some "---- Tuesday 06 July 2021 ----\n  Minimum Temperature: 0.0°C\n  Maximum Temperature: 5.0°C\n\n"
    ∧ ("---- Tuesday 06 July 2021 ----\n  Minimum Temperature: 0.0°C\n  Maximum Temperature: 5.0°C\n\n").data.reverse.take 2
      = ['\n', '\n'] := by
  constructor
  · unfold generate_daily_summary
    rw [if_neg (by decide), dailyBlocks_example]
    decide
  · decide

/-- C2 (amended): for every non-empty series whose dates all parse,
`generate_daily_summary` emits one three-line newline-terminated block per
record in series order (dashed date header, converted low, converted high),
joins consecutive blocks with exactly one blank line, and then appends one
more newline after the final newline-terminated block — so the output ends
with a trailing blank line (`"\n\n"`), not with a single newline. -/
theorem claim_C2_daily_summary (series : List DayRecord) (h : series ≠ [])
    (blocks : List String) (hb : dailyBlocks series = some blocks) :
    generate_daily_summary series = some (String.intercalate "\n" blocks ++ "\n")
    ∧ blocks.length = series.length
    ∧ ∀ i r, series.get? i = some r → ∃ date, convert_date r.1 = some date ∧
        blocks.get? i = some ("---- " ++ date ++ " ----\n  Minimum Temperature: "
          ++ format_temperature (convert_f_to_c r.2.1)
          ++ "\n  Maximum Temperature: "
          ++ format_temperature (convert_f_to_c r.2.2) ++ "\n") := by
  obtain ⟨hlen, hidx⟩ := dailyBlocks_eq series blocks hb
  refine ⟨?_, hlen, hidx⟩
  unfold generate_daily_summary
  rw [if_neg h, hb]
  rfl

/-- Witness for C2 (amended) at a concrete one-record series. -/
theorem claim_C2_witness :
    generate_daily_summary [("2021-07-06", 32, 41)]
      = some (String.intercalate "\n"
          ["---- Tuesday 06 July 2021 ----\n  Minimum Temperature: 0.0°C\n  Maximum Temperature: 5.0°C\n"]
        ++ "\n")
    ∧ (["---- Tuesday 06 July 2021 ----\n  Minimum Temperature: 0.0°C\n  Maximum Temperature: 5.0°C\n"] : List String).length
      = ([("2021-07-06", 32, 41)] : List DayRecord).length
    ∧ ∀ i r, ([("2021-07-06", 32, 41)] : List DayRecord).get? i = some r →
        ∃ date, convert_date r.1 = some date ∧
        (["---- Tuesday 06 July 2021 ----\n  Minimum Temperature: 0.0°C\n  Maximum Temperature: 5.0°C\n"] : List String).get? i
          = some ("---- " ++ date ++ " ----\n  Minimum Temperature: "
            ++ format_temperature (convert_f_to_c r.2.1)
            ++ "\n  Maximum Temperature: "
            ++ format_temperature (convert_f_to_c r.2.2) ++ "\n") :=
  claim_C2_daily_summary [("2021-07-06", 32, 41)] (by decide) _ dailyBlocks_example

/-- The five-line overview template of `generate_summary`: the extreme
temperatures' dates are resolved by indexing the original series with the
indices returned by `find_min`/`find_max`, and each average is the mean of
the converted sequence re-rounded to one decimal place before formatting. -/
theorem generate_summary_template (series : List DayRecord)
    (minT : ℚ) (minI : ℕ) (maxT : ℚ) (maxI : ℕ) (dmin dmax : String)
    (hne : series ≠ [])
    (hfm : find_min (series.map (fun day => convert_f_to_c day.2.1)) = some (minT, minI))
    (hfx : find_max (series.map (fun day => convert_f_to_c day.2.2)) = some (maxT, maxI))
    (hd1 : (series.get? minI).bind (fun r => convert_date r.1) = some dmin)
    (hd2 : (series.get? maxI).bind (fun r => convert_date r.1) = some dmax) :
    generate_summary series
      = some (natRepr series.length ++ " Day Overview\n  The lowest temperature will be "
        ++ format_temperature minT ++ ", and will occur on " ++ dmin
        ++ ".\n  The highest temperature will be " ++ format_temperature maxT
        ++ ", and will occur on " ++ dmax
        ++ ".\n  The average low this week is "
        ++ format_temperature (round1 (calculate_mean (series.map (fun day => convert_f_to_c day.2.1))))
        ++ ".\n  The average high this week is "
        ++ format_temperature (round1 (calculate_mean (series.map (fun day => convert_f_to_c day.2.2))))
        ++ ".\n") := by
  rcases hg1 : series.get? minI with _ | minRec <;> rw [hg1] at hd1
  · exact Option.noConfusion hd1
  rcases hg2 : series.get? maxI with _ | maxRec <;> rw [hg2] at hd2
  · exact Option.noConfusion hd2
  dsimp only [Option.bind] at hd1 hd2
  unfold generate_summary
  rw [if_neg hne]
  dsimp only []
  rw [hfm, hfx]
  dsimp only []
  rw [hg1, hg2]
  dsimp only []
  rw [hd1, hd2]

theorem lows_example :
    ex3.map (fun day => convert_f_to_c day.2.1)
      = [((11 : ℤ) : ℚ) / 10, ((39 : ℤ) : ℚ) / 10, ((56 : ℤ) : ℚ) / 10] := by
  have e34 : convert_f_to_c 34 = ((11 : ℤ) : ℚ) / 10 :=
    convert_f_to_c_eval_down 34 11 (by norm_num) (by norm_num)
  have e39 : convert_f_to_c 39 = ((39 : ℤ) : ℚ) / 10 := by
    rw [convert_f_to_c_eval_up 39 38 (by norm_num) (by norm_num) (by norm_num)]
    norm_num
  have e42 : convert_f_to_c 42 = ((56 : ℤ) : ℚ) / 10 := by
    rw [convert_f_to_c_eval_up 42 55 (by norm_num) (by norm_num) (by norm_num)]
    norm_num
  unfold ex3
  dsimp only [List.map]
  rw [e34, e39, e42]

theorem highs_example :
    ex3.map (fun day => convert_f_to_c day.2.2)
      = [((200 : ℤ) : ℚ) / 10, ((250 : ℤ) : ℚ) / 10, ((217 : ℤ) : ℚ) / 10] := by
  have e68 : convert_f_to_c 68 = ((200 : ℤ) : ℚ) / 10 :=
    convert_f_to_c_eval_down 68 200 (by norm_num) (by norm_num)
  have e77 : convert_f_to_c 77 = ((250 : ℤ) : ℚ) / 10 :=
    convert_f_to_c_eval_down 77 250 (by norm_num) (by norm_num)
  have e71 : convert_f_to_c 71 = ((217 : ℤ) : ℚ) / 10 := by
    rw [convert_f_to_c_eval_up 71 216 (by norm_num) (by norm_num) (by norm_num)]
    norm_num
  unfold ex3
  dsimp only [List.map]
  rw [e68, e77, e71]

theorem find_min_example :
    find_min (ex3.map (fun day => convert_f_to_c day.2.1))
      = some (((11 : ℤ) : ℚ) / 10, 0) := by
  rw [lows_example]
  obtain ⟨m, i, heq, hlt, hget, hlb, hmax2⟩ :=
    find_min_eq [((11 : ℤ) : ℚ) / 10, ((39 : ℤ) : ℚ) / 10, ((56 : ℤ) : ℚ) / 10] (by simp)
  have h0 : m ≤ ((11 : ℤ) : ℚ) / 10 := hlb _ (by simp)
  have h3 : i < 3 := by simpa using hlt
  interval_cases i
  · have hm : ((11 : ℤ) : ℚ) / 10 = m := hget
    rw [heq, ← hm]
  · have hm : ((39 : ℤ) : ℚ) / 10 = m := hget
    rw [← hm] at h0
    norm_num at h0
  · have hm : ((56 : ℤ) : ℚ) / 10 = m := hget
    rw [← hm] at h0
    norm_num at h0

theorem find_max_example :
    find_max (ex3.map (fun day => convert_f_to_c day.2.2))
      = some (((250 : ℤ) : ℚ) / 10, 1) := by
  rw [highs_example]
  obtain ⟨m, i, heq, hlt, hget, hub, hmax2⟩ :=
    find_max_eq [((200 : ℤ) : ℚ) / 10, ((250 : ℤ) : ℚ) / 10, ((217 : ℤ) : ℚ) / 10] (by simp)
  have h0 : ((250 : ℤ) : ℚ) / 10 ≤ m := hub _ (by simp)
  have h3 : i < 3 := by simpa using hlt
  interval_cases i
  · have hm : ((200 : ℤ) : ℚ) / 10 = m := hget
    rw [← hm] at h0
    norm_num at h0
  · have hm : ((250 : ℤ) : ℚ) / 10 = m := hget
    rw [heq, ← hm]
  · have hm : ((217 : ℤ) : ℚ) / 10 = m := hget
    rw [← hm] at h0
    norm_num at h0

theorem min_date_example :
    (ex3.get? 0).bind (fun r => convert_date r.1) = some "Monday 05 July 2021" := by
  decide

theorem max_date_example :
    (ex3.get? 1).bind (fun r => convert_date r.1) = some "Tuesday 06 July 2021" := by
  decide

theorem avg_low_example :
    round1 (calculate_mean (ex3.map (fun day => convert_f_to_c day.2.1)))
      = ((35 : ℤ) : ℚ) / 10 := by
  rw [lows_example, calculate_mean_ne _ (by simp)]
  have hx : (([((11 : ℤ) : ℚ) / 10, ((39 : ℤ) : ℚ) / 10, ((56 : ℤ) : ℚ) / 10] : List ℚ).sum
      / (([((11 : ℤ) : ℚ) / 10, ((39 : ℤ) : ℚ) / 10, ((56 : ℤ) : ℚ) / 10] : List ℚ).length : ℚ))
      = 106 / 30 := by
    norm_num [List.sum_cons]
  rw [hx, round1_eq_down (106 / 30) 35 (by norm_num) (by norm_num)]

theorem avg_high_example :
    round1 (calculate_mean (ex3.map (fun day => convert_f_to_c day.2.2)))
      = ((222 : ℤ) : ℚ) / 10 := by
  rw [highs_example, calculate_mean_ne _ (by simp)]
  have hx : (([((200 : ℤ) : ℚ) / 10, ((250 : ℤ) : ℚ) / 10, ((217 : ℤ) : ℚ) / 10] : List ℚ).sum
      / (([((200 : ℤ) : ℚ) / 10, ((250 : ℤ) : ℚ) / 10, ((217 : ℤ) : ℚ) / 10] : List ℚ).length : ℚ))
      = 667 / 30 := by
    norm_num [List.sum_cons]
  rw [hx, round1_eq_down (667 / 30) 222 (by norm_num) (by norm_num)]

theorem fmt_example_low : format_temperature (((11 : ℤ) : ℚ) / 10) = "1.1°C" := by
  rw [format_temperature_eval _ 11 rfl]
  decide

theorem fmt_example_high : format_temperature (((250 : ℤ) : ℚ) / 10) = "25.0°C" := by
  rw [format_temperature_eval _ 250 rfl]
  decide

theorem fmt_example_avg_low : format_temperature (((35 : ℤ) : ℚ) / 10) = "3.5°C" := by
  rw [format_temperature_eval _ 35 rfl]
  decide

theorem fmt_example_avg_high : format_temperature (((222 : ℤ) : ℚ) / 10) = "22.2°C" := by
  rw [format_temperature_eval _ 222 rfl]
  decide

/-- C8: for every non-empty series, `generate_summary` renders the fixed
five-line template where the extreme temperatures' dates are resolved by
indexing the original series with the indices returned by
`find_min`/`find_max` on the converted lows/highs, and where each average
is the mean of the converted sequence re-rounded to one decimal place
before formatting; on the three-record example it reports 1.1°C on Monday
05 July 2021 and 25.0°C on Tuesday 06 July 2021. -/
theorem claim_C8_overview :
    (∀ (series : List DayRecord) (minT : ℚ) (minI : ℕ) (maxT : ℚ) (maxI : ℕ)
        (dmin dmax : String), series ≠ [] →
      find_min (series.map (fun day => convert_f_to_c day.2.1)) = some (minT, minI) →
      find_max (series.map (fun day => convert_f_to_c day.2.2)) = some (maxT, maxI) →
      (series.get? minI).bind (fun r => convert_date r.1) = some dmin →
      (series.get? maxI).bind (fun r => convert_date r.1) = some dmax →
      generate_summary series
        = some (natRepr series.length ++ " Day Overview\n  The lowest temperature will be "
          ++ format_temperature minT ++ ", and will occur on " ++ dmin
          ++ ".\n  The highest temperature will be " ++ format_temperature maxT
          ++ ", and will occur on " ++ dmax
          ++ ".\n  The average low this week is "
          ++ format_temperature (round1 (calculate_mean (series.map (fun day => convert_f_to_c day.2.1))))
          ++ ".\n  The average high this week is "
          ++ format_temperature (round1 (calculate_mean (series.map (fun day => convert_f_to_c day.2.2))))
          ++ ".\n"))
    ∧ generate_summary ex3
      = some "3 Day Overview\n  The lowest temperature will be 1.1°C, and will occur on Monday 05 July 2021.\n  The highest temperature will be 25.0°C, and will occur on Tuesday 06 July 2021.\n  The average low this week is 3.5°C.\n  The average high this week is 22.2°C.\n" := by
  constructor
  · intro series minT minI maxT maxI dmin dmax hne hfm hfx hd1 hd2
    exact generate_summary_template series minT minI maxT maxI dmin dmax hne hfm hfx hd1 hd2
  · rw [generate_summary_template ex3 (((11 : ℤ) : ℚ) / 10) 0 (((250 : ℤ) : ℚ) / 10) 1
      "Monday 05 July 2021" "Tuesday 06 July 2021" (by decide)
      find_min_example find_max_example min_date_example max_date_example]
    rw [avg_low_example, avg_high_example, fmt_example_low, fmt_example_high,
      fmt_example_avg_low, fmt_example_avg_high]
    set_option maxRecDepth 4000 in decide

/-- Witness for C8: the template conjunct applied at the example series. -/
theorem claim_C8_witness :
    generate_summary ex3
      = some (natRepr ex3.length ++ " Day Overview\n  The lowest temperature will be "
        ++ format_temperature (((11 : ℤ) : ℚ) / 10) ++ ", and will occur on "
        ++ "Monday 05 July 2021"
        ++ ".\n  The highest temperature will be " ++ format_temperature (((250 : ℤ) : ℚ) / 10)
        ++ ", and will occur on " ++ "Tuesday 06 July 2021"
        ++ ".\n  The average low this week is "
        ++ format_temperature (round1 (calculate_mean (ex3.map (fun day => convert_f_to_c day.2.1))))
        ++ ".\n  The average high this week is "
        ++ format_temperature (round1 (calculate_mean (ex3.map (fun day => convert_f_to_c day.2.2))))
        ++ ".\n") :=
  claim_C8_overview.1 ex3 (((11 : ℤ) : ℚ) / 10) 0 (((250 : ℤ) : ℚ) / 10) 1
    "Monday 05 July 2021" "Tuesday 06 July 2021" (by decide)
    find_min_example find_max_example min_date_example max_date_example

/-- C9: `generate_summary` and `generate_daily_summary` are deterministic
and mutation-free: calling either twice on the same unmodified series gives
identical output strings, and the input series is unchanged.  In this
embedding both builders are pure functions — the module's only global,
`DEGREE_SYMBOL`, is an immutable constant, and no other state exists — so
the property reduces to congruence. -/
theorem claim_C9_deterministic :
    ∀ s1 s2 : List DayRecord, s1 = s2 →
      generate_summary s1 = generate_summary s2
      ∧ generate_daily_summary s1 = generate_daily_summary s2
      ∧ s1 = s2 :=
  fun _ _ h => ⟨congrArg _ h, congrArg _ h, h⟩

/-- Witness for C9 at the concrete example series. -/
theorem claim_C9_witness :
    generate_summary ex3 = generate_summary ex3
    ∧ generate_daily_summary ex3 = generate_daily_summary ex3
    ∧ ex3 = ex3 :=
  claim_C9_deterministic ex3 ex3 rfl

end Weather
